import Mathlib

/-!
Verification model of the iris video-processing subsystem
(`ml-service/app/services/task_manager.py`,
`ml-service/app/services/video_yolo_service.py`,
`ml-service/app/services/video_frame_service.py`).

Python floats are modelled as rationals; `round(x, d)` is modelled as
decimal rounding to `d` places with ties to even (Python's `round`);
the task registry (a Python `dict`) is modelled as an insertion-ordered
association list; mutation methods become pure state transformers with
the wall-clock time passed explicitly.
-/

namespace Iris

/-- Rounding of a rational to the nearest integer, ties to even
(the behaviour of Python's builtin `round`). -/
def round_half_even (q : ℚ) : ℤ :=
  let f := ⌊q⌋
  let frac := q - (f : ℚ)
  if frac < 1/2 then f
  else if 1/2 < frac then f + 1
  else if Even f then f else f + 1

/-- Model of Python's `round(q, d)`: round to `d` decimal places. -/
def round_to (d : ℕ) (q : ℚ) : ℚ :=
  (round_half_even (q * 10 ^ d) : ℚ) / 10 ^ d

/-! ## Task Manager (`task_manager.py`) -/

/-- `TaskStatus` enum (task_manager.py lines 16-21). -/
inductive TaskStatus
  | pending
  | processing
  | completed
  | failed
deriving DecidableEq, Repr

/-- `TaskProgress` dataclass (task_manager.py lines 24-37).  `result` is the
opaque success payload (modelled as a string). -/
structure TaskProgress where
  task_id : String
  status : TaskStatus
  progress : ℚ
  current_frame : ℤ
  total_frames : ℤ
  message : String
  created_at : ℚ
  started_at : Option ℚ
  completed_at : Option ℚ
  result : Option String
  error : Option String
deriving DecidableEq, Repr

/-- The task registry `self.tasks`: a Python dict modelled as an
insertion-ordered association list. -/
abbrev Registry := List (String × TaskProgress)

/-- `self.tasks.get(task_id)`. -/
def dict_get (tasks : Registry) (task_id : String) : Option TaskProgress :=
  (tasks.find? (fun p => p.1 == task_id)).map (fun p => p.2)

/-- In-place mutation of the task object stored under a key. -/
def dict_modify (tasks : Registry) (task_id : String)
    (f : TaskProgress → TaskProgress) : Registry :=
  tasks.map (fun p => if p.1 = task_id then (p.1, f p.2) else p)

/-- The mutation `update_progress` performs on the task it found
(task_manager.py lines 132-142): set `current_frame`; when
`total_frames > 0` set `progress = min(current_frame / total_frames, 1.0)`;
overwrite `message` when a truthy message is given; on the first call
transition Pending to Processing and record the start time. -/
def update_progress_task (current_frame : ℤ) (message : Option String)
    (now : ℚ) (task : TaskProgress) : TaskProgress :=
  let t1 : TaskProgress := { task with current_frame := current_frame }
  let t2 : TaskProgress :=
    if 0 < t1.total_frames then
      { t1 with progress := min ((current_frame : ℚ) / (t1.total_frames : ℚ)) 1 }
    else t1
  let t3 : TaskProgress :=
    match message with
    | some m => if m = "" then t2 else { t2 with message := m }
    | none => t2
  if t3.status = TaskStatus.pending then
    { t3 with status := TaskStatus.processing, started_at := some now }
  else t3

/-- `TaskManager.update_progress` (task_manager.py lines 113-142); an unknown
id is a silent no-op. -/
def update_progress (tasks : Registry) (task_id : String) (current_frame : ℤ)
    (message : Option String) (now : ℚ) : Registry :=
  match dict_get tasks task_id with
  | none => tasks
  | some _ => dict_modify tasks task_id (update_progress_task current_frame message now)

/-- The mutation `complete_task` performs on the task it found
(task_manager.py lines 157-161). -/
def complete_task_fn (now : ℚ) (result : String) (task : TaskProgress) : TaskProgress :=
  { task with
    status := TaskStatus.completed
    progress := 1
    completed_at := some now
    result := some result
    message := "Processing completed successfully" }

/-- `TaskManager.complete_task` (task_manager.py lines 144-164). -/
def complete_task (tasks : Registry) (task_id : String) (result : String)
    (now : ℚ) : Registry :=
  match dict_get tasks task_id with
  | none => tasks
  | some _ => dict_modify tasks task_id (complete_task_fn now result)

/-- The mutation `fail_task` performs on the task it found
(task_manager.py lines 179-182). -/
def fail_task_fn (now : ℚ) (error : String) (task : TaskProgress) : TaskProgress :=
  { task with
    status := TaskStatus.failed
    completed_at := some now
    error := some error
    message := "Processing failed: " ++ error }

/-- `TaskManager.fail_task` (task_manager.py lines 166-184). -/
def fail_task (tasks : Registry) (task_id : String) (error : String)
    (now : ℚ) : Registry :=
  match dict_get tasks task_id with
  | none => tasks
  | some _ => dict_modify tasks task_id (fail_task_fn now error)

/-- The eviction filter of `_cleanup_old_tasks` (task_manager.py lines 192-196):
status is Completed or Failed and `completed_at` is not None. -/
def is_terminal_with_time (p : String × TaskProgress) : Bool :=
  (decide (p.2.status = TaskStatus.completed) || decide (p.2.status = TaskStatus.failed))
    && p.2.completed_at.isSome

/-- Sort key of the eviction sweep: ascending `completed_at`
(task_manager.py line 198). -/
def le_completed (a b : String × TaskProgress) : Bool :=
  decide (a.2.completed_at.getD 0 ≤ b.2.completed_at.getD 0)

/-- `TaskManager._cleanup_old_tasks` (task_manager.py lines 186-204):
if the registry exceeds `max_tasks`, sort the terminal tasks ascending by
completion time and delete the first `len - max_tasks + 10` of them. -/
def cleanup_old_tasks (max_tasks : ℕ) (tasks : Registry) : Registry :=
  if tasks.length ≤ max_tasks then tasks
  else
    let completed_tasks := tasks.filter is_terminal_with_time
    let sorted := completed_tasks.mergeSort le_completed
    let to_remove := tasks.length - max_tasks + 10
    let removed := sorted.take to_remove
    tasks.filter (fun p => ! removed.any (fun q => q.1 == p.1))

/-- `TaskManager.create_task` (task_manager.py lines 77-99): insert a fresh
Pending task (the uuid is passed in as `task_id`) and run the eviction
sweep. -/
def create_task (max_tasks : ℕ) (tasks : Registry) (task_id : String)
    (total_frames : ℤ) (now : ℚ) : Registry :=
  let task : TaskProgress :=
    { task_id := task_id
      status := TaskStatus.pending
      progress := 0
      current_frame := 0
      total_frames := total_frames
      message := "Task created, waiting to start"
      created_at := now
      started_at := none
      completed_at := none
      result := none
      error := none }
  cleanup_old_tasks max_tasks (tasks ++ [(task_id, task)])

/-! ### Interleaving model for the cross-thread access pattern

`complete_task` performs five separate attribute assignments
(task_manager.py lines 157-161) with no lock held; under the interpreter
each single assignment is atomic, but a `get_task` snapshot from the
event-loop thread may be scheduled between any two of them.  The
observable states are therefore the prefixes of the assignment
sequence. -/

/-- The five attribute assignments of `complete_task`, in source order. -/
def complete_task_steps (now : ℚ) (result : String) :
    List (TaskProgress → TaskProgress) :=
  [ fun t => { t with status := TaskStatus.completed },
    fun t => { t with progress := 1 },
    fun t => { t with completed_at := some now },
    fun t => { t with result := some result },
    fun t => { t with message := "Processing completed successfully" } ]

/-- All task states a concurrent reader can observe while a write sequence
runs: one state per prefix of the assignment list. -/
def observable_states (t : TaskProgress) (steps : List (TaskProgress → TaskProgress)) :
    List TaskProgress :=
  List.scanl (fun s f => f s) t steps

/-! ### Registry lemmas -/

theorem dict_get_modify (tasks : Registry) (task_id : String)
    (f : TaskProgress → TaskProgress) :
    dict_get (dict_modify tasks task_id f) task_id = (dict_get tasks task_id).map f := by
  induction tasks with
  | nil => rfl
  | cons p rest ih =>
    by_cases h : p.1 = task_id
    · simp only [dict_get, dict_modify, List.map_cons, h, if_pos rfl]
      rw [List.find?_cons_of_pos, List.find?_cons_of_pos] <;> simp [h]
    · simp only [dict_get, dict_modify, List.map_cons, if_neg h]
      rw [List.find?_cons_of_neg, List.find?_cons_of_neg]
      · exact ih
      · simp [h]
      · simp [h]

theorem dict_get_update_progress (tasks : Registry) (task_id : String)
    (t : TaskProgress) (h : dict_get tasks task_id = some t)
    (cf : ℤ) (msg : Option String) (now : ℚ) :
    dict_get (update_progress tasks task_id cf msg now) task_id =
      some (update_progress_task cf msg now t) := by
  unfold update_progress
  rw [h]
  rw [dict_get_modify, h]
  rfl

theorem dict_get_complete_task (tasks : Registry) (task_id : String)
    (t : TaskProgress) (h : dict_get tasks task_id = some t)
    (result : String) (now : ℚ) :
    dict_get (complete_task tasks task_id result now) task_id =
      some (complete_task_fn now result t) := by
  unfold complete_task
  rw [h]
  rw [dict_get_modify, h]
  rfl

theorem dict_get_fail_task (tasks : Registry) (task_id : String)
    (t : TaskProgress) (h : dict_get tasks task_id = some t)
    (error : String) (now : ℚ) :
    dict_get (fail_task tasks task_id error now) task_id =
      some (fail_task_fn now error t) := by
  unfold fail_task
  rw [h]
  rw [dict_get_modify, h]
  rfl

/-- Fields of the task after `update_progress` on a non-pending task:
only `current_frame`, `progress` and `message` can change. -/
theorem update_progress_task_not_pending (cf : ℤ) (msg : Option String)
    (now : ℚ) (t : TaskProgress) (h : t.status ≠ TaskStatus.pending) :
    (update_progress_task cf msg now t).status = t.status ∧
    (update_progress_task cf msg now t).started_at = t.started_at ∧
    (update_progress_task cf msg now t).completed_at = t.completed_at ∧
    (update_progress_task cf msg now t).result = t.result ∧
    (update_progress_task cf msg now t).error = t.error ∧
    (update_progress_task cf msg now t).total_frames = t.total_frames ∧
    (update_progress_task cf msg now t).current_frame = cf := by
  unfold update_progress_task
  by_cases htot : 0 < t.total_frames <;>
    cases msg with
    | none => simp [htot, h]
    | some m =>
      by_cases hm : m = "" <;> simp [htot, h, hm]

/-! ### C2: terminal tasks -/

/-- Example terminal task used to exhibit the missing terminal-state guard. -/
def C2_task : TaskProgress :=
  { task_id := "t"
    status := TaskStatus.completed
    progress := 1
    current_frame := 5
    total_frames := 10
    message := "Processing completed successfully"
    created_at := 0
    started_at := some 1
    completed_at := some 2
    result := some "r"
    error := none }

/-- Example registry holding only the completed task. -/
def C2_registry : Registry := [("t", C2_task)]

/-- C2 counterexample: `update_progress` on a task that has already reached
the terminal status Completed still changes its fields: `current_frame`
moves from 5 to 7 and `progress` drops from 1 to 7/10, because
`update_progress` performs no terminal-state check. -/
theorem C2_counterexample :
    C2_task.status = TaskStatus.completed ∧
    dict_get C2_registry "t" = some C2_task ∧
    (dict_get (update_progress C2_registry "t" 7 none 3) "t").map
        TaskProgress.current_frame = some 7 ∧
    C2_task.current_frame = 5 ∧
    (dict_get (update_progress C2_registry "t" 7 none 3) "t").map
        TaskProgress.progress = some (7/10) ∧
    C2_task.progress = 1 := by
  refine ⟨rfl, rfl, ?_, rfl, ?_, rfl⟩ <;>
  · rw [dict_get_update_progress C2_registry "t" C2_task rfl]
    simp [update_progress_task, C2_task]
    try norm_num [min_eq_left]

/-- C2 (amended): once a task is terminal no method moves it out of a
terminal status — `update_progress` preserves the status (and the
`started_at`, `completed_at`, `result` and `error` fields) of a terminal
task — but none of the three mutation methods guards against terminal
states: `update_progress` still overwrites `current_frame` (and possibly
`progress` and `message`), and `complete_task` / `fail_task` overwrite a
terminal task's fields and force status Completed resp. Failed (so a
Failed task can even be flipped to Completed and vice versa). -/
theorem C2_terminal_no_guard (tasks : Registry) (task_id : String)
    (t : TaskProgress) (hget : dict_get tasks task_id = some t)
    (hterm : t.status = TaskStatus.completed ∨ t.status = TaskStatus.failed)
    (cf : ℤ) (msg : Option String) (now : ℚ) (res err : String) :
    (dict_get (update_progress tasks task_id cf msg now) task_id).map
        TaskProgress.status = some t.status ∧
    (dict_get (update_progress tasks task_id cf msg now) task_id).map
        TaskProgress.started_at = some t.started_at ∧
    (dict_get (update_progress tasks task_id cf msg now) task_id).map
        TaskProgress.completed_at = some t.completed_at ∧
    (dict_get (update_progress tasks task_id cf msg now) task_id).map
        TaskProgress.result = some t.result ∧
    (dict_get (update_progress tasks task_id cf msg now) task_id).map
        TaskProgress.error = some t.error ∧
    (dict_get (update_progress tasks task_id cf msg now) task_id).map
        TaskProgress.current_frame = some cf ∧
    (dict_get (complete_task tasks task_id res now) task_id).map
        TaskProgress.status = some TaskStatus.completed ∧
    (dict_get (fail_task tasks task_id err now) task_id).map
        TaskProgress.status = some TaskStatus.failed := by
  have hnp : t.status ≠ TaskStatus.pending := by
    rcases hterm with h | h <;> rw [h] <;> intro hc <;> cases hc
  have hu := update_progress_task_not_pending cf msg now t hnp
  rw [dict_get_update_progress tasks task_id t hget,
      dict_get_complete_task tasks task_id t hget,
      dict_get_fail_task tasks task_id t hget]
  refine ⟨?_, ?_, ?_, ?_, ?_, ?_, rfl, rfl⟩ <;>
    simp [hu.1, hu.2.1, hu.2.2.1, hu.2.2.2.1, hu.2.2.2.2.1, hu.2.2.2.2.2.2]

/-- Witness for C2: instantiate the amended theorem at the concrete
completed task. -/
theorem C2_terminal_no_guard_witness :
    (dict_get C2_registry "t" = some C2_task ∧
      (C2_task.status = TaskStatus.completed ∨ C2_task.status = TaskStatus.failed)) ∧
    (dict_get (update_progress C2_registry "t" 7 none 3) "t").map
        TaskProgress.status = some C2_task.status :=
  ⟨⟨rfl, Or.inl rfl⟩,
    (C2_terminal_no_guard C2_registry "t" C2_task rfl (Or.inl rfl) 7 none 3 "res" "err").1⟩

/-! ### C3: progress across a sequence of update_progress calls -/

/-- General field behaviour of one `update_progress` mutation: progress is
set to `min(current_frame / total_frames, 1.0)` when `total_frames > 0` and
left unchanged otherwise; `total_frames` itself never changes. -/
theorem update_progress_task_progress (cf : ℤ) (msg : Option String)
    (now : ℚ) (t : TaskProgress) :
    (update_progress_task cf msg now t).progress =
      (if 0 < t.total_frames then min ((cf : ℚ) / (t.total_frames : ℚ)) 1
       else t.progress) ∧
    (update_progress_task cf msg now t).total_frames = t.total_frames := by
  unfold update_progress_task
  cases msg with
  | none =>
    by_cases htot : 0 < t.total_frames <;>
      by_cases hp : t.status = TaskStatus.pending <;> simp [htot, hp]
  | some m =>
    by_cases hm : m = "" <;> by_cases htot : 0 < t.total_frames <;>
      by_cases hp : t.status = TaskStatus.pending <;> simp [htot, hp, hm]

/-- The sequence of progress values a task exposes over a sequence of
`update_progress(task_id, current_frame)` calls, each given as a pair of
the `current_frame` argument and the call time. -/
def progress_trace : Registry → String → List (ℤ × ℚ) → List ℚ
  | _, _, [] => []
  | tasks, task_id, u :: rest =>
    let s1 := update_progress tasks task_id u.1 none u.2
    ((dict_get s1 task_id).map TaskProgress.progress).getD 0 ::
      progress_trace s1 task_id rest

theorem progress_trace_eq_pos (updates : List (ℤ × ℚ)) :
    ∀ (tasks : Registry) (task_id : String) (t : TaskProgress),
    dict_get tasks task_id = some t → 0 < t.total_frames →
    progress_trace tasks task_id updates =
      updates.map (fun u => min ((u.1 : ℚ) / (t.total_frames : ℚ)) 1) := by
  induction updates with
  | nil => intro tasks task_id t _ _; rfl
  | cons u rest ih =>
    intro tasks task_id t hget htot
    have hstep := dict_get_update_progress tasks task_id t hget u.1 none u.2
    have hfields := update_progress_task_progress u.1 none u.2 t
    simp only [progress_trace, hstep, Option.map_some', Option.getD_some, List.map_cons]
    congr 1
    · rw [hfields.1, if_pos htot]
    · rw [ih _ task_id _ hstep (hfields.2 ▸ htot), hfields.2]

theorem progress_trace_eq_nonpos (updates : List (ℤ × ℚ)) :
    ∀ (tasks : Registry) (task_id : String) (t : TaskProgress),
    dict_get tasks task_id = some t → t.total_frames ≤ 0 →
    progress_trace tasks task_id updates =
      List.replicate updates.length t.progress := by
  induction updates with
  | nil => intro tasks task_id t _ _; rfl
  | cons u rest ih =>
    intro tasks task_id t hget htot
    have hstep := dict_get_update_progress tasks task_id t hget u.1 none u.2
    have hfields := update_progress_task_progress u.1 none u.2 t
    have hnot : ¬ 0 < t.total_frames := not_lt.mpr htot
    simp only [progress_trace, hstep, Option.map_some', Option.getD_some,
      List.length_cons, List.replicate_succ]
    congr 1
    · rw [hfields.1, if_neg hnot]
    · rw [ih _ task_id _ hstep (hfields.2 ▸ htot), hfields.1, if_neg hnot]

/-- Example fresh task with 10 total frames. -/
def C3_task : TaskProgress :=
  { task_id := "t"
    status := TaskStatus.pending
    progress := 0
    current_frame := 0
    total_frames := 10
    message := "Task created, waiting to start"
    created_at := 0
    started_at := none
    completed_at := none
    result := none
    error := none }

/-- Example registry holding only the fresh task. -/
def C3_registry : Registry := [("t", C3_task)]

/-- C3 counterexample: with arbitrary `current_frame` arguments the
progress is neither non-decreasing nor confined to [0,1]: the call
sequence `current_frame = 5` then `current_frame = 3` (total 10) yields
the decreasing trace [1/2, 3/10], and a single call with
`current_frame = -1` yields progress -1/10 < 0, because `update_progress`
recomputes `progress = min(current_frame/total_frames, 1.0)` from scratch
with no lower clamp. -/
theorem C3_counterexample :
    progress_trace C3_registry "t" [(5, 1), (3, 2)] = [1/2, 3/10] ∧
    ¬ ((1:ℚ)/2 ≤ 3/10) ∧
    progress_trace C3_registry "t" [(-1, 1)] = [-1/10] ∧
    ¬ ((0:ℚ) ≤ -1/10) := by
  have h1 := progress_trace_eq_pos [(5, 1), (3, 2)] C3_registry "t" C3_task rfl
    (by norm_num [C3_task])
  have h2 := progress_trace_eq_pos [(-1, 1)] C3_registry "t" C3_task rfl
    (by norm_num [C3_task])
  refine ⟨?_, by norm_num, ?_, by norm_num⟩
  · rw [h1]; norm_num [C3_task, min_eq_left]
  · rw [h2]; norm_num [C3_task, min_eq_left]

/-- C3 (amended): when `total_frames > 0` every `update_progress` call sets
`progress = min(current_frame/total_frames, 1.0)`; across a sequence of
calls whose `current_frame` arguments are non-negative and non-decreasing
(as produced by the frame loop) the progress is non-decreasing and lies
in [0,1]; with arbitrary arguments neither holds (see the counterexample).
When `total_frames ≤ 0` the progress field is never touched by
`update_progress` (it stays at its initial 0 until completion). -/
theorem C3_progress_formula_and_monotone
    (tasks : Registry) (task_id : String) (t : TaskProgress)
    (hget : dict_get tasks task_id = some t)
    (updates : List (ℤ × ℚ))
    (hnn : ∀ u ∈ updates, 0 ≤ u.1)
    (hmono : List.Chain' (fun a b : ℤ × ℚ => a.1 ≤ b.1) updates) :
    (0 < t.total_frames →
      progress_trace tasks task_id updates =
        updates.map (fun u => min ((u.1 : ℚ) / (t.total_frames : ℚ)) 1) ∧
      List.Chain' (· ≤ ·) (progress_trace tasks task_id updates) ∧
      ∀ p ∈ progress_trace tasks task_id updates, 0 ≤ p ∧ p ≤ 1) ∧
    (t.total_frames ≤ 0 →
      progress_trace tasks task_id updates =
        List.replicate updates.length t.progress) := by
  constructor
  · intro htot
    have heq := progress_trace_eq_pos updates tasks task_id t hget htot
    have hT : (0 : ℚ) < (t.total_frames : ℚ) := by exact_mod_cast htot
    refine ⟨heq, ?_, ?_⟩
    · rw [heq, List.chain'_map]
      refine hmono.imp ?_
      intro a b hab
      exact min_le_min (by
        apply div_le_div_of_nonneg_right ?_ hT.le
        exact_mod_cast hab) le_rfl
    · intro p hp
      rw [heq] at hp
      rcases List.mem_map.mp hp with ⟨u, hu, hpu⟩
      subst hpu
      refine ⟨le_min ?_ (by norm_num), min_le_right _ _⟩
      exact div_nonneg (by exact_mod_cast hnn u hu) (le_of_lt hT)
  · intro htot
    exact progress_trace_eq_nonpos updates tasks task_id t hget htot

/-- Witness for C3: the amended theorem applied to the concrete fresh task
with the non-decreasing call sequence 3, 5. -/
theorem C3_progress_formula_and_monotone_witness :
    (dict_get C3_registry "t" = some C3_task ∧
      (∀ u ∈ ([(3, 1), (5, 2)] : List (ℤ × ℚ)), 0 ≤ u.1) ∧
      List.Chain' (fun a b : ℤ × ℚ => a.1 ≤ b.1) [(3, 1), (5, 2)]) ∧
    (0 < C3_task.total_frames →
      progress_trace C3_registry "t" [(3, 1), (5, 2)] =
        ([(3, 1), (5, 2)] : List (ℤ × ℚ)).map
          (fun u => min ((u.1 : ℚ) / (C3_task.total_frames : ℚ)) 1) ∧
      List.Chain' (· ≤ ·) (progress_trace C3_registry "t" [(3, 1), (5, 2)]) ∧
      ∀ p ∈ progress_trace C3_registry "t" [(3, 1), (5, 2)], 0 ≤ p ∧ p ≤ 1) :=
  ⟨⟨rfl, by decide, by norm_num [List.chain'_cons]⟩,
    (C3_progress_formula_and_monotone C3_registry "t" C3_task rfl
      [(3, 1), (5, 2)] (by decide) (by norm_num [List.chain'_cons])).1⟩

/-! ### C9: cross-thread torn reads -/

/-- A task mid-run: Processing at 50 of 100 frames, progress 0.5. -/
def C9_task : TaskProgress :=
  { task_id := "t"
    status := TaskStatus.processing
    progress := 1/2
    current_frame := 50
    total_frames := 100
    message := "Processing frame 50/100"
    created_at := 0
    started_at := some 1
    completed_at := none
    result := none
    error := none }

/-- C9: the Task Manager performs multi-field mutations with no lock, so a
status poll interleaved with `complete_task` can observe a torn state.
After the first of the five attribute assignments of `complete_task`
(status only), a reader sees status Completed while progress is still 0.5
(and `completed_at`/`result` still unset) — a state that is neither the
pre-state (which was Processing) nor the post-state (whose progress is 1).
The last observable state does coincide with the atomic `complete_task`
result, confirming the step model agrees with the single-thread model. -/
theorem C9_torn_read :
    ((observable_states C9_task (complete_task_steps 2 "r")).get? 1).map
        TaskProgress.status = some TaskStatus.completed ∧
    ((observable_states C9_task (complete_task_steps 2 "r")).get? 1).map
        TaskProgress.progress = some (1/2) ∧
    ((observable_states C9_task (complete_task_steps 2 "r")).get? 1).map
        TaskProgress.completed_at = some none ∧
    (1:ℚ)/2 ≠ 1 ∧
    C9_task.status = TaskStatus.processing ∧
    (complete_task_fn 2 "r" C9_task).progress = 1 ∧
    (observable_states C9_task (complete_task_steps 2 "r")).getLast? =
      some (complete_task_fn 2 "r" C9_task) := by
  refine ⟨rfl, rfl, rfl, by norm_num, rfl, rfl, rfl⟩

/-! ### C5: the eviction sweep -/

/-- Distinct keys let us identify an entry from its key. -/
theorem key_inj (tasks : Registry) (hnd : (tasks.map Prod.fst).Nodup)
    {p q : String × TaskProgress} (hp : p ∈ tasks) (hq : q ∈ tasks)
    (hk : p.1 = q.1) : p = q :=
  List.inj_on_of_nodup_map hnd hp hq hk

/-- Membership in the cleaned registry: with distinct keys, exactly the
entries of the removal slice disappear. -/
theorem cleanup_mem_iff (max_tasks : ℕ) (tasks : Registry)
    (hnd : (tasks.map Prod.fst).Nodup) (hgt : max_tasks < tasks.length)
    (p : String × TaskProgress) :
    p ∈ cleanup_old_tasks max_tasks tasks ↔
      p ∈ tasks ∧
        p ∉ ((tasks.filter is_terminal_with_time).mergeSort le_completed).take
              (tasks.length - max_tasks + 10) := by
  have hng : ¬ tasks.length ≤ max_tasks := not_le.mpr hgt
  unfold cleanup_old_tasks
  rw [if_neg hng]
  simp only [List.mem_filter, Bool.not_eq_eq_eq_not, Bool.not_true, List.any_eq_false,
    Bool.not_eq_true]
  constructor
  · rintro ⟨hp, hno⟩
    refine ⟨hp, fun hrem => ?_⟩
    have := hno p hrem
    simp at this
  · rintro ⟨hp, hno⟩
    refine ⟨hp, fun q hq => ?_⟩
    by_contra hqe
    simp only [Bool.not_eq_false, beq_iff_eq] at hqe
    have hqmem : q ∈ tasks := by
      have h1 : q ∈ (tasks.filter is_terminal_with_time).mergeSort le_completed :=
        List.mem_of_mem_take hq
      have h2 := (List.mergeSort_perm (tasks.filter is_terminal_with_time)
        le_completed).mem_iff.mp h1
      exact List.mem_of_mem_filter h2
    exact hno (key_inj tasks hnd hqmem hp hqe ▸ hq)

/-- C5 counterexample: with `max_tasks = 0` and a registry holding one
Pending task, the registry size (1) exceeds `max_tasks`, the claimed
removal count is `1 - 0 + 10 = 11 > 0`, yet the sweep removes nothing
because no terminal task exists: only terminal tasks are eviction
candidates, so the sweep removes `min(size - max_tasks + headroom,
number of terminal tasks)` entries, not always `size - max_tasks +
headroom`. -/
theorem C5_counterexample :
    cleanup_old_tasks 0 [("p", C3_task)] = [("p", C3_task)] ∧
    ([("p", C3_task)] : Registry).length = 1 ∧ 0 < 1 - 0 + 10 := by
  refine ⟨?_, rfl, by norm_num⟩
  unfold cleanup_old_tasks
  rw [if_neg (by norm_num)]
  have hfil : ([("p", C3_task)] : Registry).filter is_terminal_with_time = [] := by
    simp [is_terminal_with_time, C3_task]
  rw [hfil]
  simp

/-- C5 (amended): when the registry size exceeds `max_tasks`, the sweep
removes exactly the first `size - max_tasks + headroom` entries (all of
them terminal with a completion time) of the terminal tasks sorted
ascending by `completed_at` — hence `min(size - max_tasks + headroom,
number of terminal tasks)` entries in total, fewer than
`size - max_tasks + headroom` when not enough terminal tasks exist.
Every removed task's completion time is at most that of every kept
terminal task, and Pending/Processing tasks are never evicted. -/
theorem C5_eviction_sweep (max_tasks : ℕ) (tasks : Registry)
    (hnd : (tasks.map Prod.fst).Nodup) (hgt : max_tasks < tasks.length) :
    (∀ p, p ∈ cleanup_old_tasks max_tasks tasks ↔
        p ∈ tasks ∧
          p ∉ ((tasks.filter is_terminal_with_time).mergeSort le_completed).take
                (tasks.length - max_tasks + 10)) ∧
    (((tasks.filter is_terminal_with_time).mergeSort le_completed).take
          (tasks.length - max_tasks + 10)).length =
      min (tasks.length - max_tasks + 10) (tasks.filter is_terminal_with_time).length ∧
    (∀ p ∈ ((tasks.filter is_terminal_with_time).mergeSort le_completed).take
          (tasks.length - max_tasks + 10), is_terminal_with_time p = true) ∧
    (∀ p ∈ ((tasks.filter is_terminal_with_time).mergeSort le_completed).take
          (tasks.length - max_tasks + 10),
      ∀ q ∈ cleanup_old_tasks max_tasks tasks, is_terminal_with_time q = true →
        p.2.completed_at.getD 0 ≤ q.2.completed_at.getD 0) ∧
    (∀ p ∈ tasks,
      p.2.status = TaskStatus.pending ∨ p.2.status = TaskStatus.processing →
        p ∈ cleanup_old_tasks max_tasks tasks) := by
  have hperm := List.mergeSort_perm (tasks.filter is_terminal_with_time) le_completed
  refine ⟨cleanup_mem_iff max_tasks tasks hnd hgt, ?_, ?_, ?_, ?_⟩
  · rw [List.length_take, hperm.length_eq]
  · intro p hp
    exact List.of_mem_filter (hperm.mem_iff.mp (List.mem_of_mem_take hp))
  · intro p hp q hq hqterm
    have hsorted : List.Pairwise (fun a b => le_completed a b = true)
        ((tasks.filter is_terminal_with_time).mergeSort le_completed) := by
      refine List.sorted_mergeSort ?_ ?_ _
      · intro a b c hab hbc
        simp only [le_completed, decide_eq_true_eq] at *
        exact le_trans hab hbc
      · intro a b
        simp only [le_completed, Bool.or_eq_true, decide_eq_true_eq]
        exact le_total _ _
    have hq2 := (cleanup_mem_iff max_tasks tasks hnd hgt q).mp hq
    have hqsort : q ∈ (tasks.filter is_terminal_with_time).mergeSort le_completed :=
      hperm.mem_iff.mpr (List.mem_filter.mpr ⟨hq2.1, hqterm⟩)
    have hsplit := List.take_append_drop (tasks.length - max_tasks + 10)
      ((tasks.filter is_terminal_with_time).mergeSort le_completed)
    have hqdrop : q ∈ ((tasks.filter is_terminal_with_time).mergeSort le_completed).drop
        (tasks.length - max_tasks + 10) := by
      rcases (List.mem_append.mp (hsplit ▸ hqsort)) with h | h
      · exact absurd h hq2.2
      · exact h
    have hcross := (List.pairwise_append.mp (hsplit ▸ hsorted)).2.2
    have := hcross p hp q hqdrop
    simpa [le_completed] using this
  · intro p hp hst
    refine (cleanup_mem_iff max_tasks tasks hnd hgt p).mpr ⟨hp, fun hrem => ?_⟩
    have hterm := List.of_mem_filter (hperm.mem_iff.mp (List.mem_of_mem_take hrem))
    rcases hst with h | h <;>
      simp [is_terminal_with_time, h] at hterm

/-- A terminal task, completed at time 2. -/
def C5_done_task : TaskProgress :=
  { C2_task with task_id := "d" }

/-- Witness for C5: a registry with one terminal and one pending task, at
`max_tasks = 0`. -/
theorem C5_eviction_sweep_witness :
    ((([("d", C5_done_task), ("p", C3_task)] : Registry).map Prod.fst).Nodup ∧
      0 < ([("d", C5_done_task), ("p", C3_task)] : Registry).length) ∧
    (∀ p ∈ ([("d", C5_done_task), ("p", C3_task)] : Registry),
      p.2.status = TaskStatus.pending ∨ p.2.status = TaskStatus.processing →
        p ∈ cleanup_old_tasks 0 [("d", C5_done_task), ("p", C3_task)]) :=
  ⟨⟨by decide, by decide⟩,
    (C5_eviction_sweep 0 [("d", C5_done_task), ("p", C3_task)]
      (by decide) (by decide)).2.2.2.2⟩

/-! ## Video Detection Orchestrator (`video_yolo_service.py`)

Frames are abstract values of a type `α`; the external detection adapter
is a function `α → List Detection`.  The decoder loop "read until
`ret` is false" becomes structural recursion over the list of decodable
frames. -/

/-- One detection returned by the adapter (`_parse_detection_results`). -/
structure Detection where
  class_name : String
  confidence : ℚ
  bbox : ℚ × ℚ × ℚ × ℚ
deriving DecidableEq, Repr

/-- One entry of `frame_detections`
(video_yolo_service.py lines 256-261). -/
structure FrameRecord where
  frame_number : ℕ
  timestamp : ℚ
  detections : List Detection
  count : ℕ
deriving DecidableEq, Repr

/-- A frame is processed iff `frame_skip == 0 or
frame_number % (frame_skip + 1) == 0` (negation of the skip test at
video_yolo_service.py line 234). -/
def keep_frame (frame_skip frame_number : ℕ) : Bool :=
  decide (frame_skip = 0 ∨ frame_number % (frame_skip + 1) = 0)

/-- The frame loop of `VideoYOLOService._process_video_frames`
(video_yolo_service.py lines 217-272), started at frame counter `n`:
skipped frames advance the counter only; processed frames run the
detector and append a record with `timestamp = round(frame_number/fps, 3)`
(0 when `fps <= 0`). -/
def process_video_frames (detect : α → List Detection) (frame_skip : ℕ)
    (fps : ℚ) : List α → ℕ → List FrameRecord
  | [], _ => []
  | frame :: rest, frame_number =>
    if 0 < frame_skip ∧ frame_number % (frame_skip + 1) ≠ 0 then
      process_video_frames detect frame_skip fps rest (frame_number + 1)
    else
      let detections := detect frame
      { frame_number := frame_number
        timestamp := round_to 3 (if 0 < fps then (frame_number : ℚ) / fps else 0)
        detections := detections
        count := detections.length } ::
        process_video_frames detect frame_skip fps rest (frame_number + 1)

/-- The record built for a processed frame. -/
def mk_frame_record (detect : α → List Detection) (fps : ℚ)
    (p : ℕ × α) : FrameRecord :=
  { frame_number := p.1
    timestamp := round_to 3 (if 0 < fps then (p.1 : ℚ) / fps else 0)
    detections := detect p.2
    count := (detect p.2).length }

/-- Closed form of the frame loop: the records are exactly the kept
entries of the enumerated frame list, in order. -/
theorem process_video_frames_eq (detect : α → List Detection)
    (frame_skip : ℕ) (fps : ℚ) (frames : List α) :
    ∀ n, process_video_frames detect frame_skip fps frames n =
      ((List.enumFrom n frames).filter (fun p => keep_frame frame_skip p.1)).map
        (mk_frame_record detect fps) := by
  induction frames with
  | nil => intro n; rfl
  | cons frame rest ih =>
    intro n
    by_cases h : 0 < frame_skip ∧ n % (frame_skip + 1) ≠ 0
    · have hk : keep_frame frame_skip n = false := by
        simp only [keep_frame, decide_eq_false_iff_not, not_or]
        exact ⟨Nat.pos_iff_ne_zero.mp h.1, h.2⟩
      simp only [process_video_frames, if_pos h, List.enumFrom_cons,
        List.filter_cons, hk, ih]
      simp
    · have hk : keep_frame frame_skip n = true := by
        simp only [keep_frame, decide_eq_true_eq]
        rcases Nat.eq_zero_or_pos frame_skip with h0 | h0
        · exact Or.inl h0
        · exact Or.inr (by_contra fun hc => h ⟨h0, hc⟩)
      simp only [process_video_frames, if_neg h, List.enumFrom_cons,
        List.filter_cons, hk, List.map_cons, ih]
      simp
      rfl

/-- Frame numbers of the records: the kept members of
`range' n frames.length`, hence strictly increasing. -/
theorem process_video_frames_numbers (detect : α → List Detection)
    (frame_skip : ℕ) (fps : ℚ) (frames : List α) (n : ℕ) :
    (process_video_frames detect frame_skip fps frames n).map
        FrameRecord.frame_number =
      (List.range' n frames.length).filter (keep_frame frame_skip) := by
  rw [process_video_frames_eq]
  have hcomm : ∀ (l : List (ℕ × α)),
      (l.filter (fun p => keep_frame frame_skip p.1)).map
          (fun p => (mk_frame_record detect fps p).frame_number) =
        (l.map Prod.fst).filter (keep_frame frame_skip) := by
    intro l
    induction l with
    | nil => rfl
    | cons x xs ihx =>
      by_cases hx : keep_frame frame_skip x.1
      · simp [List.filter_cons, hx, ihx]
        rfl
      · simp only [Bool.not_eq_true] at hx
        simp [List.filter_cons, hx, ihx]
  rw [List.map_map]
  have := hcomm (List.enumFrom n frames)
  rw [← List.enumFrom_map_fst n frames, ← this]
  rfl

/-! ### C4: the decimation contract of `detect_objects_in_video` -/

/-- C4 counterexample: the recorded timestamp is not `frame_number/fps`
but `round(frame_number/fps, 3)`: at 30 FPS, frame 1 is recorded with
timestamp 33/1000, not 1/30. -/
theorem C4_counterexample :
    (process_video_frames (fun _ : ℕ => ([] : List Detection)) 0 30 [7, 8] 0).map
        FrameRecord.timestamp = [0, 33/1000] ∧
    (33:ℚ)/1000 ≠ 1/30 := by
  constructor
  · simp only [process_video_frames, keep_frame]
    norm_num [round_to, round_half_even]
  · norm_num

/-- C4 (amended): `detect_objects_in_video`'s frame loop records frames in
strictly increasing index order; frame `n` is processed (sent to the
detector and recorded) iff `frame_skip = 0 ∨ n % (frame_skip+1) = 0`
(frame 0 always kept); each record holds the detector's output for that
frame and its length as `count`, and its timestamp is `frame_number/fps`
rounded to 3 decimal places (0 when `fps ≤ 0`); with `frame_skip = 2` on
a 300-frame video exactly the frames 0,3,6,… are processed, i.e. exactly
100 records. -/
theorem C4_decimation {α : Type} (detect : α → List Detection)
    (frame_skip : ℕ) (fps : ℚ) (frames : List α) :
    ((process_video_frames detect frame_skip fps frames 0).map
        FrameRecord.frame_number =
      (List.range frames.length).filter (keep_frame frame_skip)) ∧
    List.Pairwise (· < ·)
      ((process_video_frames detect frame_skip fps frames 0).map
        FrameRecord.frame_number) ∧
    (∀ r ∈ process_video_frames detect frame_skip fps frames 0,
      r.timestamp = round_to 3 (if 0 < fps then (r.frame_number : ℚ) / fps else 0) ∧
      r.count = r.detections.length ∧
      (frames.get? r.frame_number).map detect = some r.detections) ∧
    ((process_video_frames (fun _ : ℕ => ([] : List Detection)) 2 30
        (List.range 300) 0).map FrameRecord.frame_number =
      (List.range 300).filter (fun n => decide (n % 3 = 0))) ∧
    (process_video_frames (fun _ : ℕ => ([] : List Detection)) 2 30
        (List.range 300) 0).length = 100 := by
  have hnum := process_video_frames_numbers detect frame_skip fps frames 0
  rw [← List.range_eq_range'] at hnum
  refine ⟨hnum, ?_, ?_, by decide, by decide⟩
  · rw [hnum]
    exact (List.pairwise_lt_range frames.length).filter _
  · intro r hr
    rw [process_video_frames_eq] at hr
    rcases List.mem_map.mp hr with ⟨p, hpf, hpr⟩
    have hpe : p ∈ List.enumFrom 0 frames := List.mem_filter.mp hpf |>.1
    obtain ⟨-, hlt, hx⟩ := List.mem_enumFrom hpe
    subst hpr
    refine ⟨rfl, rfl, ?_⟩
    simp only [Nat.zero_add] at hlt
    simp only [Nat.sub_zero] at hx
    rw [mk_frame_record, List.get?_eq_getElem?, List.getElem?_eq_getElem hlt]
    simp [hx]

/-- Witness for C4: on a one-frame video with `fps = 0` the single record
is in the output, and the amended theorem yields its field facts. -/
theorem C4_decimation_witness :
    (mk_frame_record (fun _ : ℕ => ([] : List Detection)) 0 (0, 5) ∈
      process_video_frames (fun _ : ℕ => ([] : List Detection)) 0 0 [5] 0) ∧
    ((mk_frame_record (fun _ : ℕ => ([] : List Detection)) 0 (0, 5)).timestamp =
      round_to 3 (if (0:ℚ) < 0 then
        ((mk_frame_record (fun _ : ℕ => ([] : List Detection)) 0 (0, 5)).frame_number : ℚ) / 0
      else 0)) := by
  have hmem : mk_frame_record (fun _ : ℕ => ([] : List Detection)) 0 (0, 5) ∈
      process_video_frames (fun _ : ℕ => ([] : List Detection)) 0 0 [5] 0 := by
    simp [process_video_frames, mk_frame_record]
  exact ⟨hmem,
    ((C4_decimation (fun _ : ℕ => ([] : List Detection)) 0 0 [5]).2.2.1 _ hmem).1⟩

/-! ### C1: `segment_objects_in_video`

`video_yolo_service.py` defines `segment_objects_in_video` twice in the
same class body: a full implementation at line 330 (with the helper
`_process_video_frames_segmentation`, lines 410-501) and a stub at line
529.  In Python the later definition replaces the earlier one, so the
effective method is the stub, which unconditionally returns an error
dictionary. -/

/-- One entry of `frame_segmentations`
(video_yolo_service.py lines 476-482); `detections` is stored as an alias
of `segments` for summary compatibility. -/
structure SegFrameRecord where
  frame_number : ℕ
  timestamp : ℚ
  segments : List Detection
  detections : List Detection
  count : ℕ
deriving DecidableEq, Repr

/-- The frame loop of `_process_video_frames_segmentation`
(video_yolo_service.py lines 437-493): same iteration and decimation as
`_process_video_frames`, calling the segmentation adapter, and appending
a record for every processed frame even when it has zero segments. -/
def process_video_frames_segmentation (segment : α → List Detection)
    (frame_skip : ℕ) (fps : ℚ) : List α → ℕ → List SegFrameRecord
  | [], _ => []
  | frame :: rest, frame_number =>
    if 0 < frame_skip ∧ frame_number % (frame_skip + 1) ≠ 0 then
      process_video_frames_segmentation segment frame_skip fps rest (frame_number + 1)
    else
      let segments := segment frame
      { frame_number := frame_number
        timestamp := round_to 3 (if 0 < fps then (frame_number : ℚ) / fps else 0)
        segments := segments
        detections := segments
        count := segments.length } ::
        process_video_frames_segmentation segment frame_skip fps rest (frame_number + 1)

/-- Result dictionary of the video endpoints: either a success payload or
an error message. -/
inductive SegmentationResult
  | success (frame_segmentations : List SegFrameRecord)
  | error (message : String)
deriving DecidableEq, Repr

/-- The EFFECTIVE `segment_objects_in_video` (video_yolo_service.py lines
529-552): the second definition in the class body overrides the first, and
it returns a not-implemented error for every input. -/
def segment_objects_in_video (video_bytes : α) (confidence : ℚ)
    (frame_skip : ℕ) : SegmentationResult :=
  SegmentationResult.error
    "Video segmentation not yet implemented. Use detect_objects_in_video instead."

/-- C1: the effective `segment_objects_in_video` never succeeds — every
call returns the not-implemented error, because the stub definition at
line 529 overrides the full implementation at line 330.  The shadowed
implementation's loop does follow the identical decimation contract
(same processed frame numbers as the detection loop) and records
zero-segment frames with count 0, which is what makes the stub a slip
rather than the intent. -/
theorem C1_segmentation_stub :
    (∀ (α : Type) (video_bytes : α) (confidence : ℚ) (frame_skip : ℕ),
      segment_objects_in_video video_bytes confidence frame_skip =
        SegmentationResult.error
          "Video segmentation not yet implemented. Use detect_objects_in_video instead.") ∧
    (∀ (α : Type) (video_bytes : α) (confidence : ℚ) (frame_skip : ℕ)
      (frame_segmentations : List SegFrameRecord),
      segment_objects_in_video video_bytes confidence frame_skip ≠
        SegmentationResult.success frame_segmentations) ∧
    (∀ (α : Type) (segment detect : α → List Detection) (frame_skip : ℕ)
      (fps : ℚ) (frames : List α) (n : ℕ),
      (process_video_frames_segmentation segment frame_skip fps frames n).map
          SegFrameRecord.frame_number =
        (process_video_frames detect frame_skip fps frames n).map
          FrameRecord.frame_number) ∧
    (∀ (α : Type) (segment : α → List Detection) (frame_skip : ℕ)
      (fps : ℚ) (frames : List α) (n : ℕ),
      ∀ r ∈ process_video_frames_segmentation segment frame_skip fps frames n,
        r.count = r.segments.length ∧ r.detections = r.segments) := by
  refine ⟨fun _ _ _ _ => rfl, ?_, ?_, ?_⟩
  · intro α video_bytes confidence frame_skip frame_segmentations h
    simp [segment_objects_in_video] at h
  · intro α segment detect frame_skip fps frames n
    induction frames generalizing n with
    | nil => rfl
    | cons frame rest ih =>
      by_cases h : 0 < frame_skip ∧ n % (frame_skip + 1) ≠ 0 <;>
        simp [process_video_frames_segmentation, process_video_frames, h, ih]
  · intro α segment frame_skip fps frames n r hr
    induction frames generalizing n with
    | nil => cases hr
    | cons frame rest ih =>
      by_cases h : 0 < frame_skip ∧ n % (frame_skip + 1) ≠ 0
      · rw [process_video_frames_segmentation, if_pos h] at hr
        exact ih _ hr
      · rw [process_video_frames_segmentation, if_neg h] at hr
        rcases List.mem_cons.mp hr with h1 | h1
        · subst h1; exact ⟨rfl, rfl⟩
        · exact ih _ h1

/-- The record the shadowed segmentation loop produces for the single
frame of a one-frame video with zero segments. -/
def C1_rec : SegFrameRecord :=
  { frame_number := 0
    timestamp := round_to 3 0
    segments := []
    detections := []
    count := 0 }

/-- Witness for C1: the membership-quantified conjunct applied to the
single record of a one-frame video. -/
theorem C1_segmentation_stub_witness :
    (C1_rec ∈
      process_video_frames_segmentation (fun _ : ℕ => ([] : List Detection)) 0 0 [9] 0) ∧
    C1_rec.count = C1_rec.segments.length := by
  have hmem : C1_rec ∈
      process_video_frames_segmentation (fun _ : ℕ => ([] : List Detection)) 0 0 [9] 0 := by
    simp [process_video_frames_segmentation, C1_rec]
  exact ⟨hmem,
    (C1_segmentation_stub.2.2.2 ℕ (fun _ => []) 0 0 [9] 0 _ hmem).1⟩

/-! ## Annotated Output Assembler
(`VideoYOLOService._process_and_annotate_video`,
video_yolo_service.py lines 642-813) -/

/-- `class_counts[name] += 1` on a `defaultdict(int)` modelled as an
insertion-ordered association list. -/
def alist_incr (counts : List (String × ℕ)) (key : String) : List (String × ℕ) :=
  if counts.any (fun p => p.1 == key) then
    counts.map (fun p => if p.1 = key then (p.1, p.2 + 1) else p)
  else counts ++ [(key, 1)]

/-- Lookup with default 0 (reading a `defaultdict(int)` entry). -/
def alist_getD (counts : List (String × ℕ)) (key : String) : ℕ :=
  ((counts.find? (fun p => p.1 == key)).map (fun p => p.2)).getD 0

/-- Loop state of the annotate-and-write loop: frames written so far, the
running statistics, and the frame numbers the progress callback was
invoked with. -/
structure AnnState (α : Type u) where
  out : List α
  frame_number : ℕ
  frames_processed : ℕ
  total_detections : ℕ
  frames_with_detections : ℕ
  class_counts : List (String × ℕ)
  calls : List ℕ

/-- The final statistics dictionary
(video_yolo_service.py lines 802-809). -/
structure AnnotationStats where
  total_detections : ℕ
  frames_with_detections : ℕ
  frames_processed : ℕ
  frames_total : ℕ
  detections_by_class : List (String × ℕ)
deriving DecidableEq, Repr

/-- One iteration of the annotate loop (video_yolo_service.py lines
704-796): detect on kept frames only; when detections exist, draw them on
the frame and update the statistics; EVERY frame (drawn or not) is written
to the output; every 10th written frame the progress callback is invoked
inside a try/except that discards its outcome (lines 788-792), modelled
by calling `cb` and dropping its `Except` result. -/
def annotate_loop (detect : α → List Detection) (draw : α → List Detection → α)
    (frame_skip : ℕ) (cb : ℕ → String → Except String Unit) (total_frames : ℕ) :
    List α → AnnState α → AnnState α
  | [], s => s
  | frame :: rest, s =>
    let step :=
      if keep_frame frame_skip s.frame_number then
        let detections := detect frame
        if 0 < detections.length then
          ({ s with
              frames_with_detections := s.frames_with_detections + 1
              total_detections := s.total_detections + detections.length
              class_counts := detections.foldl
                (fun acc d => alist_incr acc d.class_name) s.class_counts
              frames_processed := s.frames_processed + 1 },
            draw frame detections)
        else ({ s with frames_processed := s.frames_processed + 1 }, frame)
      else (s, frame)
    let s2 := step.1
    let written := step.2
    let s3 := { s2 with
      out := s2.out ++ [written]
      frame_number := s.frame_number + 1 }
    let s4 :=
      if (s.frame_number + 1) % 10 = 0 then
        let msg := "Processing frame " ++ toString (s.frame_number + 1) ++ "/" ++
          toString total_frames
        let _ := cb (s.frame_number + 1) msg
        { s3 with calls := s3.calls ++ [s.frame_number + 1] }
      else s3
    annotate_loop detect draw frame_skip cb total_frames rest s4

/-- The initial loop state. -/
def ann_init (α : Type u) : AnnState α :=
  { out := []
    frame_number := 0
    frames_processed := 0
    total_detections := 0
    frames_with_detections := 0
    class_counts := []
    calls := [] }

/-- `_process_and_annotate_video`: run the loop over all decodable frames
and package the returned statistics. -/
def process_and_annotate (detect : α → List Detection)
    (draw : α → List Detection → α) (frame_skip : ℕ)
    (cb : ℕ → String → Except String Unit) (frames : List α) :
    AnnState α × AnnotationStats :=
  let s := annotate_loop detect draw frame_skip cb frames.length frames (ann_init α)
  (s, { total_detections := s.total_detections
        frames_with_detections := s.frames_with_detections
        frames_processed := s.frames_processed
        frames_total := s.frame_number
        detections_by_class := s.class_counts })

/-- What the loop writes for the frame at index `n`: the frame itself, or
the drawn frame when it was selected for detection and had detections. -/
def annotate_frame (detect : α → List Detection) (draw : α → List Detection → α)
    (frame_skip : ℕ) (n : ℕ) (frame : α) : α :=
  if keep_frame frame_skip n ∧ 0 < (detect frame).length then
    draw frame (detect frame)
  else frame

/-- Closed form of the loop's output, frame counter, and callback log. -/
theorem annotate_loop_closed (detect : α → List Detection)
    (draw : α → List Detection → α) (frame_skip : ℕ)
    (cb : ℕ → String → Except String Unit) (total_frames : ℕ)
    (frames : List α) :
    ∀ s : AnnState α,
      (annotate_loop detect draw frame_skip cb total_frames frames s).out =
        s.out ++ (List.enumFrom s.frame_number frames).map
          (fun p => annotate_frame detect draw frame_skip p.1 p.2) ∧
      (annotate_loop detect draw frame_skip cb total_frames frames s).frame_number =
        s.frame_number + frames.length ∧
      (annotate_loop detect draw frame_skip cb total_frames frames s).calls =
        s.calls ++ (List.range' (s.frame_number + 1) frames.length).filter
          (fun m => decide (m % 10 = 0)) := by
  induction frames with
  | nil => intro s; simp [annotate_loop]
  | cons frame rest ih =>
    intro s
    rw [annotate_loop]
    have harr : ∀ s4 : AnnState α,
        s4.out = s.out ++ [annotate_frame detect draw frame_skip s.frame_number frame] →
        s4.frame_number = s.frame_number + 1 →
        s4.calls = s.calls ++ (if (s.frame_number + 1) % 10 = 0
            then [s.frame_number + 1] else []) →
        (annotate_loop detect draw frame_skip cb total_frames rest s4).out =
            s.out ++ (List.enumFrom s.frame_number (frame :: rest)).map
              (fun p => annotate_frame detect draw frame_skip p.1 p.2) ∧
          (annotate_loop detect draw frame_skip cb total_frames rest s4).frame_number =
            s.frame_number + (frame :: rest).length ∧
          (annotate_loop detect draw frame_skip cb total_frames rest s4).calls =
            s.calls ++ (List.range' (s.frame_number + 1)
              (frame :: rest).length).filter (fun m => decide (m % 10 = 0)) := by
      intro s4 hout hfn hcalls
      obtain ⟨iout, ifn, icalls⟩ := ih s4
      refine ⟨?_, ?_, ?_⟩
      · rw [iout, hout, hfn, List.enumFrom_cons, List.map_cons, List.append_assoc]
        rfl
      · rw [ifn, hfn, List.length_cons]
        omega
      · rw [icalls, hcalls, hfn, List.length_cons, List.range'_succ,
          List.filter_cons, List.append_assoc]
        by_cases hdiv : (s.frame_number + 1) % 10 = 0 <;> simp [hdiv]
    by_cases hk : keep_frame frame_skip s.frame_number
    · by_cases hd : 0 < (detect frame).length
      · refine harr _ ?_ ?_ ?_ <;>
          by_cases hdiv : (s.frame_number + 1) % 10 = 0 <;>
            simp [hk, hd, hdiv, annotate_frame]
      · refine harr _ ?_ ?_ ?_ <;>
          by_cases hdiv : (s.frame_number + 1) % 10 = 0 <;>
            simp [hk, hd, hdiv, annotate_frame]
    · refine harr _ ?_ ?_ ?_ <;>
        by_cases hdiv : (s.frame_number + 1) % 10 = 0 <;>
          simp [hk, hdiv, annotate_frame]

/-- The loop never looks at the callback's outcome, so the whole run is
independent of which callback is supplied. -/
theorem annotate_loop_cb_irrel (detect : α → List Detection)
    (draw : α → List Detection → α) (frame_skip : ℕ)
    (cb cb2 : ℕ → String → Except String Unit) (total_frames : ℕ)
    (frames : List α) :
    ∀ s : AnnState α,
      annotate_loop detect draw frame_skip cb total_frames frames s =
        annotate_loop detect draw frame_skip cb2 total_frames frames s := by
  induction frames with
  | nil => intro s; rfl
  | cons frame rest ih =>
    intro s
    rw [annotate_loop, annotate_loop]
    exact ih _

/-- C6: for every input and every `frame_skip`, the annotate loop writes
every frame it reads — skipped or processed — to the output in original
order (the frame at input index `n` is written at output index `n`,
annotated exactly when it was selected and had detections), so the output
length and the reported `frames_total` both equal the number of frames
read, independent of the detector and of `frame_skip`. -/
theorem C6_every_frame_written {α : Type} (detect : α → List Detection)
    (draw : α → List Detection → α) (frame_skip : ℕ)
    (cb : ℕ → String → Except String Unit) (frames : List α) :
    ((process_and_annotate detect draw frame_skip cb frames).1.out =
      frames.enum.map (fun p => annotate_frame detect draw frame_skip p.1 p.2)) ∧
    (process_and_annotate detect draw frame_skip cb frames).1.out.length =
      frames.length ∧
    (process_and_annotate detect draw frame_skip cb frames).2.frames_total =
      frames.length := by
  obtain ⟨hout, hfn, -⟩ := annotate_loop_closed detect draw frame_skip cb
    frames.length frames (ann_init α)
  refine ⟨?_, ?_, ?_⟩
  · rw [process_and_annotate]
    rw [hout]
    rfl
  · rw [process_and_annotate]
    rw [hout]
    simp [ann_init, List.enum]
  · rw [process_and_annotate]
    simpa [ann_init] using hfn

/-- C10: the progress callback cannot disturb the annotation run: its
result (success or raised exception) is swallowed by the try/except, so
the run's entire outcome — output frames, statistics and callback log —
is identical to a run whose callback never raises; every frame is still
written, and the callback is invoked exactly on the written-frame counts
that are multiples of 10. -/
theorem C10_callback_isolated {α : Type} (detect : α → List Detection)
    (draw : α → List Detection → α) (frame_skip : ℕ)
    (cb : ℕ → String → Except String Unit) (frames : List α) :
    process_and_annotate detect draw frame_skip cb frames =
      process_and_annotate detect draw frame_skip
        (fun _ _ => Except.ok ()) frames ∧
    (process_and_annotate detect draw frame_skip cb frames).1.calls =
      (List.range' 1 frames.length).filter (fun m => decide (m % 10 = 0)) ∧
    (process_and_annotate detect draw frame_skip cb frames).1.out.length =
      frames.length := by
  obtain ⟨hout, -, hcalls⟩ := annotate_loop_closed detect draw frame_skip cb
    frames.length frames (ann_init α)
  refine ⟨?_, ?_, ?_⟩
  · rw [process_and_annotate, process_and_annotate,
      annotate_loop_cb_irrel detect draw frame_skip cb
        (fun _ _ => Except.ok ()) frames.length frames]
  · rw [process_and_annotate]
    simpa [ann_init] using hcalls
  · rw [process_and_annotate]
    rw [hout]
    simp [ann_init]

/-! ## Summary derivation (`VideoYOLOService._generate_summary`,
video_yolo_service.py lines 282-328) -/

/-- Python's `max(iterable, key=lambda x: x["count"])` starting from a
first candidate: the current best is replaced only when a later element
is STRICTLY greater, so the first maximum wins. -/
def py_max_by_count (best : FrameRecord) : List FrameRecord → FrameRecord
  | [] => best
  | x :: rest => py_max_by_count (if best.count < x.count then x else best) rest

/-- The summary dictionary (video_yolo_service.py lines 319-328). -/
structure VideoSummary where
  total_detections : ℕ
  unique_classes : List String
  detections_by_class : List (String × ℕ)
  frames_with_detections : ℕ
  frames_without_detections : ℕ
  avg_detections_per_frame : ℚ
  max_detections_in_frame : ℕ
  frame_with_most_objects : Option ℕ
deriving DecidableEq, Repr

/-- `VideoYOLOService._generate_summary` (video_yolo_service.py lines
282-328), a pure function of the frame-record list. -/
def generate_summary (frame_detections : List FrameRecord) : VideoSummary :=
  let total_detections := (frame_detections.map FrameRecord.count).sum
  let class_counts := frame_detections.foldl
    (fun acc fd => fd.detections.foldl (fun a d => alist_incr a d.class_name) acc) []
  let frames_with_objects := frame_detections.filter (fun fd => decide (0 < fd.count))
  let max_objects_frame : Option FrameRecord :=
    match frames_with_objects with
    | [] => none
    | h :: t => some (py_max_by_count h t)
  let avg : ℚ :=
    if frame_detections.isEmpty then 0
    else (total_detections : ℚ) / (frame_detections.length : ℚ)
  { total_detections := total_detections
    unique_classes := class_counts.map Prod.fst
    detections_by_class := class_counts
    frames_with_detections := frames_with_objects.length
    frames_without_detections := frame_detections.length - frames_with_objects.length
    avg_detections_per_frame := round_to 2 avg
    max_detections_in_frame := (max_objects_frame.map FrameRecord.count).getD 0
    frame_with_most_objects := max_objects_frame.map FrameRecord.frame_number }

/-! ### Histogram lemmas -/

theorem alist_getD_incr (counts : List (String × ℕ)) (key key2 : String) :
    alist_getD (alist_incr counts key) key2 =
      alist_getD counts key2 + (if key2 = key then 1 else 0) := by
  unfold alist_incr
  by_cases hany : counts.any (fun p => p.1 == key)
  · rw [if_pos hany]
    unfold alist_getD
    rw [List.find?_map]
    have hpred : ((fun p : String × ℕ => p.1 == key2) ∘
        fun p : String × ℕ => if p.1 = key then (p.1, p.2 + 1) else p) =
        (fun p : String × ℕ => p.1 == key2) := by
      funext p
      by_cases hp : p.1 = key <;> simp [hp]
    rw [hpred]
    rcases hfind : counts.find? (fun p : String × ℕ => p.1 == key2) with _ | p
    · by_cases hk : key2 = key
      · subst hk
        rcases List.any_eq_true.mp hany with ⟨q, hq, hqk⟩
        have : counts.find? (fun p : String × ℕ => p.1 == key2) ≠ none := by
          apply Option.ne_none_iff_isSome.mpr
          exact List.find?_isSome.mpr ⟨q, hq, hqk⟩
        exact absurd hfind this
      · simp [hk]
    · have hp2 : p.1 = key2 := by
        have := List.find?_some hfind
        simpa using this
      by_cases hk : key2 = key
      · simp [hp2, hk]
      · have : ¬ p.1 = key := by rw [hp2]; exact hk
        simp [this, hk]
  · rw [if_neg hany]
    unfold alist_getD
    rw [List.find?_append]
    have hnone : counts.find? (fun p : String × ℕ => p.1 == key) = none := by
      rw [List.find?_eq_none]
      intro p hp hpk
      exact hany (List.any_eq_true.mpr ⟨p, hp, hpk⟩)
    by_cases hk : key2 = key
    · subst hk
      rw [hnone]
      simp
    · have : List.find? (fun p : String × ℕ => p.1 == key2) [(key, 1)] = none := by
        rw [List.find?_cons_of_neg]
        · rfl
        · simp only [beq_iff_eq]
          exact fun h => hk h.symm
      rw [this]
      simp [hk]

theorem fold_incr_getD (ds : List Detection) :
    ∀ (acc : List (String × ℕ)) (c : String),
    alist_getD (ds.foldl (fun a d => alist_incr a d.class_name) acc) c =
      alist_getD acc c + ds.countP (fun d => d.class_name == c) := by
  induction ds with
  | nil => intro acc c; simp
  | cons d rest ih =>
    intro acc c
    rw [List.foldl_cons, ih, alist_getD_incr, List.countP_cons]
    by_cases hc : c = d.class_name
    · simp [hc]
      omega
    · have : ¬ (d.class_name == c) = true := by
        simp
        exact fun h => absurd h.symm hc
      simp [hc, this]

theorem frames_fold_getD (L : List FrameRecord) :
    ∀ (acc : List (String × ℕ)) (c : String),
    alist_getD (L.foldl
        (fun acc fd => fd.detections.foldl (fun a d => alist_incr a d.class_name) acc)
        acc) c =
      alist_getD acc c +
        (L.map FrameRecord.detections).flatten.countP (fun d => d.class_name == c) := by
  induction L with
  | nil => intro acc c; simp
  | cons fd rest ih =>
    intro acc c
    rw [List.foldl_cons, ih, fold_incr_getD, List.map_cons, List.flatten_cons,
      List.countP_append]
    omega

/-! ### First-maximum lemmas for the Python `max` -/

theorem py_max_mem (l : List FrameRecord) :
    ∀ best : FrameRecord, py_max_by_count best l = best ∨ py_max_by_count best l ∈ l := by
  induction l with
  | nil => intro best; exact Or.inl rfl
  | cons x rest ih =>
    intro best
    rw [py_max_by_count]
    rcases ih (if best.count < x.count then x else best) with h | h
    · rw [h]
      by_cases hc : best.count < x.count
      · rw [if_pos hc]; exact Or.inr (List.mem_cons_self x rest)
      · rw [if_neg hc]; exact Or.inl rfl
    · exact Or.inr (List.mem_cons_of_mem x h)

theorem py_max_ge (l : List FrameRecord) :
    ∀ best : FrameRecord, ∀ x ∈ best :: l, x.count ≤ (py_max_by_count best l).count := by
  induction l with
  | nil =>
    intro best x hx
    rcases List.mem_cons.mp hx with h | h
    · subst h; exact le_refl _
    · cases h
  | cons y rest ih =>
    intro best x hx
    rw [py_max_by_count]
    rcases List.mem_cons.mp hx with h | h
    · subst h
      calc x.count ≤ (if x.count < y.count then y else x).count := by
            by_cases hc : x.count < y.count <;> simp [hc]
            exact le_of_lt hc
        _ ≤ _ := ih _ _ (List.mem_cons_self _ _)
    · rcases List.mem_cons.mp h with h1 | h1
      · subst h1
        calc x.count ≤ (if best.count < x.count then x else best).count := by
              by_cases hc : best.count < x.count <;> simp [hc]
              exact le_of_not_lt hc
          _ ≤ _ := ih _ _ (List.mem_cons_self _ _)
      · exact ih _ _ (List.mem_cons_of_mem _ h1)

theorem py_max_first (l : List FrameRecord) :
    ∀ best : FrameRecord,
    List.Pairwise (fun a b : FrameRecord => a.frame_number < b.frame_number) (best :: l) →
    ∀ x ∈ best :: l, x.count = (py_max_by_count best l).count →
      (py_max_by_count best l).frame_number ≤ x.frame_number := by
  induction l with
  | nil =>
    intro best _ x hx _
    rcases List.mem_cons.mp hx with h | h
    · subst h; exact le_refl _
    · cases h
  | cons y rest ih =>
    intro best hsorted x hx hxc
    rw [py_max_by_count] at hxc ⊢
    have hpair := List.pairwise_cons.mp hsorted
    have htail := List.pairwise_cons.mp hpair.2
    by_cases hc : best.count < y.count
    · rw [if_pos hc] at hxc ⊢
      have hge := py_max_ge rest y
      rcases List.mem_cons.mp hx with h | h
      · exfalso
        subst h
        have := hge y (List.mem_cons_self _ _)
        omega
      · exact ih y hpair.2 x h hxc
    · rw [if_neg hc] at hxc ⊢
      have hsorted2 : List.Pairwise
          (fun a b : FrameRecord => a.frame_number < b.frame_number) (best :: rest) :=
        List.pairwise_cons.mpr
          ⟨fun z hz => hpair.1 z (List.mem_cons_of_mem y hz), htail.2⟩
      have hge := py_max_ge rest best
      rcases List.mem_cons.mp hx with h | h
      · subst h
        exact ih x hsorted2 x (List.mem_cons_self _ _) hxc
      · rcases List.mem_cons.mp h with h1 | h1
      
        · subst h1
          have hb1 : best.count ≤ (py_max_by_count best rest).count :=
            hge best (List.mem_cons_self _ _)
          have hyb : x.count ≤ best.count := le_of_not_lt hc
          have hb2 : best.count = (py_max_by_count best rest).count := by omega
          have hres := ih best hsorted2 best (List.mem_cons_self _ _) hb2
          have hby : best.frame_number < x.frame_number :=
            hpair.1 x (List.mem_cons_self _ _)
          omega
        · exact ih best hsorted2 x (List.mem_cons_of_mem _ h1) hxc

/-! ### C7 theorems -/

/-- Frame records with per-frame counts [1, 0, 0] and one "car". -/
def C7_cx_records : List FrameRecord :=
  [ { frame_number := 0, timestamp := 0,
      detections := [{ class_name := "car", confidence := 9/10, bbox := (0, 0, 1, 1) }],
      count := 1 },
    { frame_number := 1, timestamp := 0, detections := [], count := 0 },
    { frame_number := 2, timestamp := 0, detections := [], count := 0 } ]

/-- C7 counterexample: `avg_detections_per_frame` is not `total/frame_count`
but `round(total/frame_count, 2)`: for per-frame counts [1,0,0] the code
reports 0.33, while total/frame_count = 1/3. -/
theorem C7_counterexample :
    (generate_summary C7_cx_records).avg_detections_per_frame = 33/100 ∧
    ((C7_cx_records.map FrameRecord.count).sum : ℚ) / (C7_cx_records.length : ℚ) = 1/3 ∧
    (33:ℚ)/100 ≠ 1/3 := by
  refine ⟨?_, by norm_num [C7_cx_records], by norm_num⟩
  show round_to 2 _ = 33/100
  norm_num [C7_cx_records, round_to, round_half_even]

/-- Frame records with per-frame counts [2, 0, 1], classes car, car and
person (the concrete instance named in the claim). -/
def C7_records : List FrameRecord :=
  [ { frame_number := 0, timestamp := 0,
      detections := [{ class_name := "car", confidence := 9/10, bbox := (0, 0, 1, 1) },
                     { class_name := "car", confidence := 8/10, bbox := (0, 0, 1, 1) }],
      count := 2 },
    { frame_number := 1, timestamp := 0, detections := [], count := 0 },
    { frame_number := 2, timestamp := 0,
      detections := [{ class_name := "person", confidence := 7/10, bbox := (0, 0, 1, 1) }],
      count := 1 } ]

/-- C7 (amended): the summary is a pure function of the record list:
total is the sum of the counts; `detections_by_class` is the class_name
histogram of all detections; frames with/without detections partition the
list by `count > 0`; the average is `total/frame_count` ROUNDED TO TWO
DECIMALS (0 for an empty list); the maximum frame is a frame of maximal
count and, when the records are in increasing frame order, the one with
the lowest frame index among the maxima (Python's `max` keeps the first
maximum).  On the concrete counts [2,0,1] with classes car:2, person:1:
total 3, frames_with 2, frames_without 1, avg 1.0, maximum 2 at frame 0. -/
theorem C7_summary_pure (L : List FrameRecord)
    (hsorted : List.Pairwise
      (fun a b : FrameRecord => a.frame_number < b.frame_number) L) :
    (generate_summary L).total_detections = (L.map FrameRecord.count).sum ∧
    (∀ c, alist_getD (generate_summary L).detections_by_class c =
      (L.map FrameRecord.detections).flatten.countP (fun d => d.class_name == c)) ∧
    (generate_summary L).frames_with_detections =
      L.countP (fun fd => decide (0 < fd.count)) ∧
    (generate_summary L).frames_with_detections +
      (generate_summary L).frames_without_detections = L.length ∧
    (generate_summary L).avg_detections_per_frame =
      round_to 2 (if L.isEmpty then 0
        else ((L.map FrameRecord.count).sum : ℚ) / (L.length : ℚ)) ∧
    ((∀ fd ∈ L, fd.count = 0) →
      (generate_summary L).frame_with_most_objects = none) ∧
    (∀ fd ∈ L, 0 < fd.count →
      ∃ g ∈ L, (generate_summary L).frame_with_most_objects = some g.frame_number ∧
        (generate_summary L).max_detections_in_frame = g.count ∧
        (∀ x ∈ L, x.count ≤ g.count) ∧
        (∀ x ∈ L, x.count = g.count → g.frame_number ≤ x.frame_number)) ∧
    ((generate_summary C7_records).total_detections = 3 ∧
      alist_getD (generate_summary C7_records).detections_by_class "car" = 2 ∧
      alist_getD (generate_summary C7_records).detections_by_class "person" = 1 ∧
      (generate_summary C7_records).frames_with_detections = 2 ∧
      (generate_summary C7_records).frames_without_detections = 1 ∧
      (generate_summary C7_records).avg_detections_per_frame = 1 ∧
      (generate_summary C7_records).max_detections_in_frame = 2 ∧
      (generate_summary C7_records).frame_with_most_objects = some 0) := by
  refine ⟨rfl, ?_, (List.countP_eq_length_filter _ _).symm, ?_, rfl, ?_, ?_,
    by decide, by decide, by decide, by decide, by decide, ?_, by decide, by decide⟩
  · intro c
    simpa [alist_getD] using frames_fold_getD L [] c
  · have := List.length_filter_le (fun fd => decide (0 < fd.count)) L
    show (L.filter _).length + (L.length - (L.filter _).length) = L.length
    omega
  · intro hz
    have hF : L.filter (fun fd => decide (0 < fd.count)) = [] := by
      rw [List.filter_eq_nil]
      intro a ha
      simp [hz a ha]
    show (match L.filter (fun fd : FrameRecord => decide (0 < fd.count)) with
      | [] => (none : Option FrameRecord)
      | h :: t => some (py_max_by_count h t)).map FrameRecord.frame_number = none
    rw [hF]
    rfl
  · intro fd hfd hpos
    have hfF : fd ∈ L.filter (fun fd => decide (0 < fd.count)) :=
      List.mem_filter.mpr ⟨hfd, by simpa using hpos⟩
    rcases hF : L.filter (fun fd => decide (0 < fd.count)) with _ | ⟨h, t⟩
    · rw [hF] at hfF; cases hfF
    · have hsortF : List.Pairwise
          (fun a b : FrameRecord => a.frame_number < b.frame_number) (h :: t) := by
        rw [← hF]
        exact List.Pairwise.sublist (List.filter_sublist L) hsorted
      have hgmem : py_max_by_count h t ∈ L := by
        rcases py_max_mem t h with hg | hg
        · rw [hg]
          exact List.mem_of_mem_filter (hF ▸ List.mem_cons_self h t)
        · exact List.mem_of_mem_filter (hF ▸ List.mem_cons_of_mem h hg)
      refine ⟨py_max_by_count h t, hgmem, ?_, ?_, ?_, ?_⟩
      · show (match L.filter (fun fd : FrameRecord => decide (0 < fd.count)) with
          | [] => (none : Option FrameRecord)
          | h :: t => some (py_max_by_count h t)).map FrameRecord.frame_number = _
        rw [hF]
        rfl
      · show ((match L.filter (fun fd : FrameRecord => decide (0 < fd.count)) with
          | [] => (none : Option FrameRecord)
          | h :: t => some (py_max_by_count h t)).map FrameRecord.count).getD 0 = _
        rw [hF]
        rfl
      · intro x hx
        by_cases hxp : 0 < x.count
        · have hxF : x ∈ h :: t := hF ▸ List.mem_filter.mpr ⟨hx, by simpa using hxp⟩
          exact py_max_ge t h x hxF
        · omega
      · intro x hx hxc
        have hhp : 0 < h.count := by
          have : h ∈ L.filter (fun fd => decide (0 < fd.count)) :=
            hF ▸ List.mem_cons_self h t
          simpa using (List.mem_filter.mp this).2
        have hgp : 0 < (py_max_by_count h t).count :=
          lt_of_lt_of_le hhp (py_max_ge t h h (List.mem_cons_self h t))
        have hxp : 0 < x.count := hxc ▸ hgp
        have hxF : x ∈ h :: t := hF ▸ List.mem_filter.mpr ⟨hx, by simpa using hxp⟩
        exact py_max_first t h hsortF x hxF hxc
  · show round_to 2 _ = 1
    norm_num [C7_records, round_to, round_half_even]

/-- Witness for C7: the amended theorem at the concrete [2,0,1] records
(which are in increasing frame order). -/
theorem C7_summary_pure_witness :
    List.Pairwise (fun a b : FrameRecord => a.frame_number < b.frame_number)
      C7_records ∧
    (generate_summary C7_records).total_detections =
      (C7_records.map FrameRecord.count).sum := by
  have hs : List.Pairwise (fun a b : FrameRecord => a.frame_number < b.frame_number)
      C7_records := by
    simp [C7_records, List.pairwise_cons]
  exact ⟨hs, (C7_summary_pure C7_records hs).1⟩

/-! ## Frame Sampler (`video_frame_service.py`)

A video decode context is modelled by its reported metadata plus a
partial read function (`cap.set(POS_FRAMES, i); cap.read()`).  The read
function takes an integer because `extract_frames_by_interval` can ask
for indices that were never range-checked. -/

/-- A decode context: the metadata OpenCV reports plus frame reads. -/
structure VideoMeta (α : Type u) where
  total_frames : ℕ
  fps : ℚ
  width : ℕ
  height : ℕ
  read_frame : ℤ → Option α

/-- `VideoInfo` dataclass (video_frame_service.py lines 22-29). -/
structure VideoInfo where
  total_frames : ℕ
  fps : ℚ
  duration : ℚ
  width : ℕ
  height : ℕ
deriving DecidableEq, Repr

/-- The `ValueError`s of the frame service, by site. -/
inductive VideoError
  | frame_index_out_of_range (idx : ℤ) (total : ℕ)
  | frame_read_failed (idx : ℤ)
deriving DecidableEq, Repr

/-- `FrameData` dataclass (video_frame_service.py lines 32-38); the
JPEG re-encoding is out of scope so the frame stays abstract. -/
structure FrameData (α : Type u) where
  frame : α
  frame_index : ℤ
  timestamp : ℚ

/-- `VideoFrameService.get_video_info` (video_frame_service.py lines
109-147): `duration = total_frames / fps if fps > 0 else 0`. -/
def get_video_info (m : VideoMeta α) : VideoInfo :=
  { total_frames := m.total_frames
    fps := m.fps
    duration := if 0 < m.fps then (m.total_frames : ℚ) / m.fps else 0
    width := m.width
    height := m.height }

/-- `VideoFrameService.extract_single_frame` (video_frame_service.py lines
149-217): the index defaults to `total_frames // 2`; an index outside
`[0, total_frames)` raises; a failed read raises;
`timestamp = frame_index / fps if fps > 0 else 0`. -/
def extract_single_frame (m : VideoMeta α) (frame_index : Option ℤ) :
    Except VideoError (FrameData α) :=
  let idx := frame_index.getD ((m.total_frames / 2 : ℕ) : ℤ)
  if idx < 0 ∨ (m.total_frames : ℤ) ≤ idx then
    Except.error (VideoError.frame_index_out_of_range idx m.total_frames)
  else
    match m.read_frame idx with
    | none => Except.error (VideoError.frame_read_failed idx)
    | some frame =>
      Except.ok
        { frame := frame
          frame_index := idx
          timestamp := if 0 < m.fps then (idx : ℚ) / m.fps else 0 }

/-- Python's `int()` float truncation (toward zero). -/
def py_int (q : ℚ) : ℤ :=
  if 0 ≤ q then ⌊q⌋ else ⌈q⌉

/-- The timestamp loop of `extract_frames_by_interval`
(video_frame_service.py lines 268-278): while `current_time < duration`
and fewer than `max_frames` indices are collected, append
`(int(current_time * fps), current_time)` when the index is in range and
advance by `frame_interval`.  Every executed iteration appends (when the
loop can run at all, `fps > 0` forces the index below `total_frames`), so
`max_frames + 1` units of fuel are sufficient for exact agreement with
the Python loop. -/
def interval_indices (fps duration frame_interval : ℚ) (total_frames max_frames : ℕ) :
    ℕ → ℚ → List (ℤ × ℚ) → List (ℤ × ℚ)
  | 0, _, acc => acc
  | fuel + 1, current_time, acc =>
    if current_time < duration ∧ acc.length < max_frames then
      let frame_index := py_int (current_time * fps)
      let acc2 :=
        if frame_index < (total_frames : ℤ) then acc ++ [(frame_index, current_time)]
        else acc
      interval_indices fps duration frame_interval total_frames max_frames fuel
        (current_time + frame_interval) acc2
    else acc

/-- `VideoFrameService.extract_frames_by_interval` (video_frame_service.py
lines 219-320): collect the timestamp/index pairs, then read each index,
skipping (not failing) frames that do not decode. -/
def extract_frames_by_interval (m : VideoMeta α) (frame_interval : ℚ)
    (max_frames : ℕ) : List (FrameData α) × VideoInfo :=
  let info := get_video_info m
  let frames_to_extract :=
    interval_indices m.fps info.duration frame_interval m.total_frames max_frames
      (max_frames + 1) 0 []
  let extracted := frames_to_extract.foldl
    (fun acc p =>
      match m.read_frame p.1 with
      | none => acc
      | some frame =>
        acc ++ [{ frame := frame, frame_index := p.1, timestamp := p.2 }])
    []
  (extracted, info)

/-- A zero-frame decode context reporting 30 FPS. -/
def C8_meta : VideoMeta ℕ :=
  { total_frames := 0
    fps := 30
    width := 640
    height := 480
    read_frame := fun _ => none }

/-- C8 counterexample: on a zero-frame video, `extract_single_frame` with
its default middle index 0 RAISES `ValueError` (index 0 is outside the
empty range [0, 0)) instead of yielding zero frames without an error. -/
theorem C8_counterexample :
    C8_meta.total_frames = 0 ∧
    extract_single_frame C8_meta none =
      Except.error (VideoError.frame_index_out_of_range 0 0) := by
  constructor
  · rfl
  · rfl

/-- C8 (amended): a video whose metadata reports `total_frames = 0` or
`fps ≤ 0` yields duration 0 from `get_video_info` and an empty frame list
from `extract_frames_by_interval`, without error; but
`extract_single_frame` does NOT yield zero frames: with its default
middle index it raises an index-out-of-range error whenever
`total_frames = 0` (the middle index 0 fails the `[0, total_frames)`
check). -/
theorem C8_zero_duration {α : Type} (m : VideoMeta α)
    (h : m.total_frames = 0 ∨ m.fps ≤ 0) (frame_interval : ℚ) (max_frames : ℕ) :
    (get_video_info m).duration = 0 ∧
    (extract_frames_by_interval m frame_interval max_frames).1 = [] ∧
    (m.total_frames = 0 →
      extract_single_frame m none =
        Except.error (VideoError.frame_index_out_of_range 0 0)) := by
  have hdur : (get_video_info m).duration = 0 := by
    unfold get_video_info
    rcases h with h | h
    · by_cases hfps : 0 < m.fps <;> simp [hfps, h]
    · simp [not_lt.mpr h]
  refine ⟨hdur, ?_, ?_⟩
  · have h1 : interval_indices m.fps (get_video_info m).duration frame_interval
        m.total_frames max_frames (max_frames + 1) 0 [] = [] := by
      rw [hdur, interval_indices]
      simp
    unfold extract_frames_by_interval
    simp only [h1]
    rfl
  · intro h0
    unfold extract_single_frame
    rw [h0]
    simp

/-- Witness for C8: a concrete zero-frame context at 30 FPS. -/
theorem C8_zero_duration_witness :
    (C8_meta.total_frames = 0 ∨ C8_meta.fps ≤ 0) ∧
    ((get_video_info C8_meta).duration = 0 ∧
      (extract_frames_by_interval C8_meta 2 10).1 = [] ∧
      (C8_meta.total_frames = 0 →
        extract_single_frame C8_meta none =
          Except.error (VideoError.frame_index_out_of_range 0 0))) :=
  ⟨Or.inl rfl, C8_zero_duration C8_meta (Or.inl rfl) 2 10⟩

end Iris
